import Mathlib

/-!
Verification of the header-handling core of sxg-rs (`src/sxg_rs/src/headers.rs`).

The Rust struct `Headers(HashMap<String, String>)` is modelled as an association
list of (name, value) pairs.  The list order models one possible iteration order
of the hash map, namely insertion order; the source's `HashMap` iteration order
is unspecified, so any property whose truth depends on the order of entries is
not guaranteed by the source either.
-/

/-- The header table; the entries of the Rust `HashMap<String, String>` in one possible
iteration order (insertion order). -/
abbrev Headers := List (String × String)

/-- Rust `k.make_ascii_lowercase()` on a single character: bytes 65..=90 (ASCII `A`..`Z`)
are shifted by 32, everything else is unchanged. -/
def asciiLowerChar (c : Char) : Char :=
  if 65 ≤ c.toNat ∧ c.toNat ≤ 90 then Char.ofNat (c.toNat + 32) else c

/-- Rust `String::make_ascii_lowercase`, applied character-wise (ASCII bytes 65..=90 only
occur as the code points of the characters `A`..`Z` in UTF-8, so the byte-wise Rust
operation agrees with this character-wise map). -/
def asciiLower (s : String) : String :=
  String.mk (s.data.map asciiLowerChar)

/-- Rust `self.0.get(k)`: the value stored under key `k`, if any. -/
def headerValue (h : Headers) (k : String) : Option String :=
  (h.find? (fun p => p.1 == k)).map Prod.snd

/-- Rust `HashMap::insert k v` on the modelled table: any existing entry for `k`
is replaced; the new entry is placed at the end. -/
def insertHeader (l : Headers) (k v : String) : Headers :=
  l.filter (fun p => p.1 != k) ++ [(k, v)]

/-- `Headers::new` (headers.rs lines 23-30): lowercase each incoming name and insert
into the table, later entries overwriting earlier ones with the same lowercased name. -/
def Headers.new (data : List (String × String)) : Headers :=
  data.foldl (fun acc kv => insertHeader acc (asciiLower kv.1) kv.2) []

/-- `UNCACHED_HEADERS` (headers.rs lines 115-135). -/
def UNCACHED_HEADERS : List String :=
  ["connection", "keep-alive", "proxy-connection", "trailer", "transfer-encoding",
   "upgrade", ":status", "content-encoding", "digest", "variant-key-04", "variants-04"]

/-- `STATEFUL_HEADERS` (headers.rs lines 137-154). -/
def STATEFUL_HEADERS : List String :=
  ["authentication-control", "authentication-info", "clear-site-data",
   "optional-www-authenticate", "proxy-authenticate", "proxy-authentication-info",
   "public-key-pins", "sec-websocket-accept", "set-cookie", "set-cookie2",
   "setprofile", "strict-transport-security", "www-authenticate"]

/-- The error string built by `format!` for a stateful header (headers.rs line 65). -/
def statefulHeaderMsg (k : String) : String :=
  "A stateful header \"" ++ k ++ "\" is found."

/-- The error string for a rejected cache-control value (headers.rs line 70). -/
def invalidCacheControlMsg (v : String) : String :=
  "The cache-control header is \"" ++ v ++ "\"."

/-- The error string for an oversized content-length (headers.rs line 79). -/
def contentTooLargeMsg (n : Nat) : String :=
  "The content-length header is " ++ toString n ++ ", which exceeds the limit 8000000."

/-- The error string for an unparsable content-length (headers.rs line 82). -/
def invalidContentLengthMsg (s : String) : String :=
  "The content-length header \"" ++ s ++ "\" is not a valid length."

/-- The error string for a missing content-type (headers.rs line 88). -/
def missingContentTypeMsg : String :=
  "The content-type header is missing."

/-- The error string for a missing accept header (headers.rs line 32). -/
def missingAcceptMsg : String :=
  "The request does not have accept header"

/-- Is `pat` a prefix of `s`? (Character lists.) -/
def charListHasPrefix : List Char → List Char → Bool
  | _, [] => true
  | [], _ :: _ => false
  | a :: as, b :: bs => a == b && charListHasPrefix as bs

/-- Does `s` contain `pat` as a contiguous substring? (Character lists.) -/
def charListHasSub : List Char → List Char → Bool
  | [], pat => pat.isEmpty
  | a :: rest, pat => charListHasPrefix (a :: rest) pat || charListHasSub rest pat

/-- Rust `str::contains` with a literal pattern: contiguous substring test. -/
def strContainsSub (s pat : String) : Bool :=
  charListHasSub s.data pat.data

/-- Rust `str::parse::<u64>()`: an optional leading `+`, then one or more ASCII decimal
digits; fails on an empty digit sequence, a non-digit character, or overflow past
`u64::MAX`.  Returns the parsed value as a `Nat`. -/
def parseU64 (s : String) : Option Nat :=
  let ds := match s.data with
    | '+' :: rest => rest
    | other => other
  if ds.isEmpty then none
  else if ds.all Char.isDigit then
    let n := ds.foldl (fun acc c => acc * 10 + (c.toNat - 48)) 0
    if n < 18446744073709551616 then some n else none
  else none

/-- The body of the per-header loop of `validate_as_sxg_payload`
(headers.rs lines 63-73): the stateful-header check, then the cache-control check. -/
def checkEntry (reject_stateful_headers : Bool) (kv : String × String) : Option String :=
  if reject_stateful_headers && STATEFUL_HEADERS.contains kv.1 then
    some (statefulHeaderMsg kv.1)
  else if kv.1 == "cache-control"
      && (strContainsSub kv.2 "no-cache" || strContainsSub kv.2 "private") then
    some (invalidCacheControlMsg kv.2)
  else none

/-- The content-length block of `validate_as_sxg_payload` (headers.rs lines 75-84). -/
def contentLengthCheck (h : Headers) : Except String Unit :=
  match headerValue h "content-length" with
  | some size =>
    match parseU64 size with
    | some n => if n > 8000000 then Except.error (contentTooLargeMsg n) else Except.ok ()
    | none => Except.error (invalidContentLengthMsg size)
  | none => Except.ok ()

/-- `Headers::validate_as_sxg_payload` (headers.rs lines 62-91): the per-header loop,
then the content-length block, then the content-type presence check. -/
def Headers.validate_as_sxg_payload (h : Headers) (reject_stateful_headers : Bool) :
    Except String Unit :=
  match h.findSome? (checkEntry reject_stateful_headers) with
  | some e => Except.error e
  | none =>
    match contentLengthCheck h with
    | Except.error e => Except.error e
    | Except.ok _ =>
      if (headerValue h "content-type").isSome then Except.ok ()
      else Except.error missingContentTypeMsg

/-- The `USER_AGENT` constant of `forward_to_origin_server` (headers.rs line 50). -/
def defaultUserAgent : String :=
  "Mozilla/5.0 (Linux; Android 6.0.1; Nexus 5X Build/MMB29P) AppleWebKit/537.36 (KHTML, like Gecko) Chrome/41.0.2272.96 Mobile Safari/537.36"

/-- The `default_values` insertion of `forward_to_origin_server` (headers.rs lines 55-59):
insert `(k, v)` only when no entry with key `k` exists. -/
def insertIfAbsent (l : Headers) (k v : String) : Headers :=
  if l.any (fun p => p.1 == k) then l else l ++ [(k, v)]

/-- `Headers::forward_to_origin_server` (headers.rs lines 31-61).
`validate_sxg_request_header` is the external media-type validator.
Modelled from the spec: the media-type validator of §6
(`crate::media_type::validate_sxg_request_header`, not part of this core) is passed
as a function argument; its error is propagated unchanged. -/
def Headers.forward_to_origin_server (h : Headers)
    (validate_sxg_request_header : String → Except String Unit)
    (forwarded_header_names : List String) : Except String Headers :=
  match headerValue h "accept" with
  | none => Except.error missingAcceptMsg
  | some accept =>
    match validate_sxg_request_header accept with
    | Except.error e => Except.error e
    | Except.ok _ =>
      let via : String := match headerValue h "via" with
        | some upstream_via => upstream_via ++ ", " ++ "sxgrs"
        | none => "sxgrs"
      let new_headers := h.filterMap (fun kv =>
        if forwarded_header_names.contains kv.1 then some kv
        else if kv.1 == "via" then some (kv.1, kv.2 ++ ", " ++ via)
        else none)
      Except.ok (insertIfAbsent (insertIfAbsent new_headers "user-agent" defaultUserAgent) "via" via)

/-- The base64 alphabet (standard, as used by Rust `base64::encode`). -/
def base64Chars : List Char :=
  "ABCDEFGHIJKLMNOPQRSTUVWXYZabcdefghijklmnopqrstuvwxyz0123456789+/".data

/-- The base64 digit for a 6-bit value. -/
def base64Digit (n : Nat) : Char :=
  base64Chars.getD n 'A'

/-- Rust `base64::encode`: standard alphabet, `=` padding. -/
def base64Encode : List Nat → String
  | [] => ""
  | [a] => String.mk [base64Digit (a / 4), base64Digit (a % 4 * 16), '=', '=']
  | [a, b] => String.mk [base64Digit (a / 4), base64Digit (a % 4 * 16 + b / 16),
      base64Digit (b % 16 * 4), '=']
  | a :: b :: c :: rest => String.mk [base64Digit (a / 4), base64Digit (a % 4 * 16 + b / 16),
      base64Digit (b % 16 * 4 + c / 64), base64Digit (c % 64)] ++ base64Encode rest

/-- UTF-8 encoding of one character, as byte values. -/
def utf8Bytes (c : Char) : List Nat :=
  let n := c.toNat
  if n < 128 then [n]
  else if n < 2048 then [192 + n / 64, 128 + n % 64]
  else if n < 65536 then [224 + n / 4096, 128 + n / 64 % 64, 128 + n % 64]
  else [240 + n / 262144, 128 + n / 4096 % 64, 128 + n / 64 % 64, 128 + n % 64]

/-- Rust `str::as_bytes`: the UTF-8 bytes of a string, as `Nat` values. -/
def strBytes (s : String) : List Nat :=
  s.data.foldr (fun c acc => utf8Bytes c ++ acc) []

/-- Modelled from the spec: the header of a CBOR data item (major type and length),
part of the structured binary encoder of §6 (`crate::cbor`, not part of this core). -/
def cborHead (major n : Nat) : List Nat :=
  if n < 24 then [major * 32 + n]
  else if n < 256 then [major * 32 + 24, n]
  else if n < 65536 then [major * 32 + 25, n / 256, n % 256]
  else if n < 4294967296 then
    [major * 32 + 26, n / 16777216, n / 65536 % 256, n / 256 % 256, n % 256]
  else [major * 32 + 27, n / 72057594037927936 % 256, n / 281474976710656 % 256,
    n / 1099511627776 % 256, n / 4294967296 % 256, n / 16777216 % 256, n / 65536 % 256,
    n / 256 % 256, n % 256]

/-- Modelled from the spec: a CBOR byte string (major type 2), part of the structured
binary encoder of §6. -/
def cborByteString (b : List Nat) : List Nat :=
  cborHead 2 b.length ++ b

/-- Byte-wise comparison of character lists (true when `x` sorts no later than `y`). -/
def charListLe : List Char → List Char → Bool
  | [], _ => true
  | _ :: _, [] => false
  | a :: as, b :: bs =>
    if a.toNat < b.toNat then true
    else if b.toNat < a.toNat then false
    else charListLe as bs

/-- The modelled encoder's key order on map entries. -/
def entryLeB (a b : String × String) : Bool :=
  charListLe a.1.data b.1.data

/-- Insert an entry into a list sorted by `entryLeB`. -/
def insertSorted (e : String × String) : List (String × String) → List (String × String)
  | [] => [e]
  | x :: xs => if entryLeB e x then e :: x :: xs else x :: insertSorted e xs

/-- Sort map entries by key (insertion sort), the canonical order of the modelled encoder. -/
def sortEntries : List (String × String) → List (String × String)
  | [] => []
  | x :: xs => insertSorted x (sortEntries xs)

/-- Modelled from the spec: the structured binary encoder of §6 (`crate::cbor`, not part
of this core) applied to a map whose keys and values are byte strings: a deterministic,
canonical serialization, with map entries ordered by key. -/
def cborMapBytes (entries : List (String × String)) : List Nat :=
  let sorted := sortEntries entries
  cborHead 5 sorted.length
    ++ sorted.foldr (fun kv acc => cborByteString (strBytes kv.1) ++ cborByteString (strBytes kv.2) ++ acc) []

/-- The signed-headers map built by `get_signed_headers_bytes` (headers.rs lines 94-105):
the original entries minus uncached and stateful names, then the three synthetic
entries `:status`, `content-encoding` and `digest`. -/
def Headers.signedHeaders (h : Headers) (status_code : Nat) (mice_digest : List Nat) :
    List (String × String) :=
  h.filter (fun kv => !(UNCACHED_HEADERS.contains kv.1 || STATEFUL_HEADERS.contains kv.1))
    ++ [(":status", toString status_code),
        ("content-encoding", "mi-sha256-03"),
        ("digest", "mi-sha256-03=" ++ base64Encode mice_digest)]

/-- `Headers::get_signed_headers_bytes` (headers.rs lines 92-112): serialize the
signed-headers map as a CBOR map of byte strings.  `status_code` models the Rust `u16`
(the claims do not depend on the 16-bit bound). -/
def Headers.get_signed_headers_bytes (h : Headers) (status_code : Nat)
    (mice_digest : List Nat) : List Nat :=
  cborMapBytes (h.signedHeaders status_code mice_digest)

/-! ### Helper lemmas -/

theorem contains_true_iff (l : List String) (a : String) : l.contains a = true ↔ a ∈ l := by
  simp [List.contains_iff_exists_mem_beq]

theorem char_toNat_ofNat (n : Nat) (h : n.isValidChar) : (Char.ofNat n).toNat = n := by
  rw [Char.ofNat, dif_pos h]
  rfl

theorem char_toNat_inj (c d : Char) (h : c.toNat = d.toNat) : c = d :=
  Char.eq_of_val_eq (UInt32.eq_of_toBitVec_eq (BitVec.toNat_injective h))

theorem string_data_inj (s t : String) (h : s.data = t.data) : s = t :=
  congrArg String.mk h

theorem headerValue_eq_none_iff (h : Headers) (k : String) :
    headerValue h k = none ↔ ∀ kv ∈ h, kv.1 ≠ k := by
  unfold headerValue
  rw [Option.map_eq_none']
  rw [List.find?_eq_none]
  constructor
  · intro hf kv hm
    have := hf kv hm
    simpa using this
  · intro hf kv hm
    simpa using hf kv hm

theorem headerValue_mem (h : Headers) (k v : String) (hv : headerValue h k = some v) :
    (k, v) ∈ h := by
  unfold headerValue at hv
  rcases Option.map_eq_some'.mp hv with ⟨kv, hfind, hsnd⟩
  have hmem := List.mem_of_find?_eq_some hfind
  have hpred := List.find?_some hfind
  have hk : kv.1 = k := by simpa using hpred
  have : kv = (k, v) := by
    cases kv
    simp_all
  rw [this] at hmem
  exact hmem

theorem statefulHeaderMsg_head (k : String) : (statefulHeaderMsg k).data.head? = some 'A' := rfl

theorem invalidCacheControlMsg_head (v : String) :
    (invalidCacheControlMsg v).data.head? = some 'T' := rfl

theorem contentTooLargeMsg_head (n : Nat) : (contentTooLargeMsg n).data.head? = some 'T' := rfl

theorem invalidContentLengthMsg_head (s : String) :
    (invalidContentLengthMsg s).data.head? = some 'T' := rfl

theorem statefulHeaderMsg_ne_of_head (k : String) (s : String)
    (hs : s.data.head? = some 'T') : statefulHeaderMsg k ≠ s := by
  intro hcontra
  have h1 := statefulHeaderMsg_head k
  rw [hcontra, hs] at h1
  simp at h1

theorem checkEntry_false_shape (kv : String × String) (e : String)
    (hc : checkEntry false kv = some e) : e = invalidCacheControlMsg kv.2 := by
  unfold checkEntry at hc
  simp only [Bool.false_and, if_false] at hc
  split at hc
  · simp_all
  · simp_all

theorem checkEntry_true_of_stateful (kv : String × String) (hs : kv.1 ∈ STATEFUL_HEADERS) :
    checkEntry true kv = some (statefulHeaderMsg kv.1) := by
  unfold checkEntry
  rw [if_pos]
  rw [Bool.true_and]
  exact (contains_true_iff _ _).mpr hs

theorem checkEntry_true_shape (kv : String × String) (e : String)
    (hnc : ¬(kv.1 = "cache-control"
      ∧ (strContainsSub kv.2 "no-cache" = true ∨ strContainsSub kv.2 "private" = true)))
    (hc : checkEntry true kv = some e) :
    kv.1 ∈ STATEFUL_HEADERS ∧ e = statefulHeaderMsg kv.1 := by
  unfold checkEntry at hc
  split at hc
  · rename_i hcond
    rw [Bool.true_and] at hcond
    exact ⟨(contains_true_iff _ _).mp hcond, by simp_all⟩
  · split at hc
    · rename_i hcond2
      exfalso
      apply hnc
      constructor
      · have := (Bool.and_eq_true _ _).mp hcond2
        simpa using this.1
      · have := (Bool.and_eq_true _ _).mp hcond2
        simpa using this.2
    · simp_all

theorem checkEntry_none (reject : Bool) (kv : String × String)
    (hns : reject = false ∨ kv.1 ∉ STATEFUL_HEADERS)
    (hnc : ¬(kv.1 = "cache-control"
      ∧ (strContainsSub kv.2 "no-cache" = true ∨ strContainsSub kv.2 "private" = true))) :
    checkEntry reject kv = none := by
  unfold checkEntry
  rw [if_neg, if_neg]
  · intro hcond
    have := (Bool.and_eq_true _ _).mp hcond
    apply hnc
    refine ⟨by simpa using this.1, by simpa using this.2⟩
  · intro hcond
    have := (Bool.and_eq_true _ _).mp hcond
    rcases hns with hr | hns
    · rw [hr] at this
      simp at this
    · exact hns ((contains_true_iff _ _).mp this.2)

theorem validate_eq_of_loop_none (h : Headers) (flag : Bool)
    (hl : h.findSome? (checkEntry flag) = none) :
    Headers.validate_as_sxg_payload h flag =
      match contentLengthCheck h with
      | Except.error e => Except.error e
      | Except.ok _ =>
        if (headerValue h "content-type").isSome then Except.ok ()
        else Except.error missingContentTypeMsg := by
  unfold Headers.validate_as_sxg_payload
  rw [hl]

theorem validate_eq_error_of_loop (h : Headers) (flag : Bool) (e : String)
    (hl : h.findSome? (checkEntry flag) = some e) :
    Headers.validate_as_sxg_payload h flag = Except.error e := by
  unfold Headers.validate_as_sxg_payload
  rw [hl]

/-- The per-header loop with rejection on, when no cache-control entry violates the
cache rule, stops at a stateful header. -/
theorem findSome_checkEntry_true_stateful (l : Headers)
    (hnc : ∀ kv ∈ l, ¬(kv.1 = "cache-control"
      ∧ (strContainsSub kv.2 "no-cache" = true ∨ strContainsSub kv.2 "private" = true)))
    (hex : ∃ kv ∈ l, kv.1 ∈ STATEFUL_HEADERS) :
    ∃ k2 v2, (k2, v2) ∈ l ∧ k2 ∈ STATEFUL_HEADERS
      ∧ l.findSome? (checkEntry true) = some (statefulHeaderMsg k2) := by
  induction l with
  | nil => simp at hex
  | cons x xs ih =>
    rw [List.findSome?_cons]
    cases hcx : checkEntry true x with
    | some e =>
      have hshape := checkEntry_true_shape x e (hnc x (by simp)) hcx
      refine ⟨x.1, x.2, by simp, hshape.1, ?_⟩
      rw [hshape.2]
    | none =>
      have hxns : x.1 ∉ STATEFUL_HEADERS := by
        intro hmem
        rw [checkEntry_true_of_stateful x hmem] at hcx
        simp at hcx
      have hex2 : ∃ kv ∈ xs, kv.1 ∈ STATEFUL_HEADERS := by
        rcases hex with ⟨kv, hkv, hst⟩
        rcases List.mem_cons.mp hkv with heq | hm
        · exact absurd hst (heq ▸ hxns)
        · exact ⟨kv, hm, hst⟩
      rcases ih (fun kv hm => hnc kv (List.mem_cons_of_mem x hm)) hex2 with
        ⟨k2, v2, hm2, hst2, hfs⟩
      exact ⟨k2, v2, List.mem_cons_of_mem x hm2, hst2, hfs⟩

/-- Any error produced by `validate_as_sxg_payload` with rejection off has the shape of
one of the cache-control, content-length or content-type error strings. -/
theorem contentLengthCheck_error_shapes (h : Headers) (e1 : String)
    (hc : contentLengthCheck h = Except.error e1) :
    (∃ n, e1 = contentTooLargeMsg n) ∨ (∃ s, e1 = invalidContentLengthMsg s) := by
  unfold contentLengthCheck at hc
  split at hc
  · split at hc
    · split at hc
      · left
        exact ⟨_, (Except.error.inj hc).symm⟩
      · simp at hc
    · right
      exact ⟨_, (Except.error.inj hc).symm⟩
  · simp at hc

theorem validate_false_error_shapes (h : Headers) (e : String)
    (hv : Headers.validate_as_sxg_payload h false = Except.error e) :
    (∃ v, e = invalidCacheControlMsg v) ∨ (∃ n, e = contentTooLargeMsg n)
      ∨ (∃ s, e = invalidContentLengthMsg s) ∨ e = missingContentTypeMsg := by
  cases hf : h.findSome? (checkEntry false) with
  | some e0 =>
    rw [validate_eq_error_of_loop h false e0 hf] at hv
    have he : e = e0 := (Except.error.inj hv).symm
    rcases List.exists_of_findSome?_eq_some hf with ⟨kv, hm, hck⟩
    left
    exact ⟨kv.2, by rw [he]; exact checkEntry_false_shape kv e0 hck⟩
  | none =>
    rw [validate_eq_of_loop_none h false hf] at hv
    cases hc : contentLengthCheck h with
    | error e1 =>
      rw [hc] at hv
      simp only at hv
      have he : e = e1 := (Except.error.inj hv).symm
      rcases contentLengthCheck_error_shapes h e1 hc with ⟨n, hn⟩ | ⟨s, hs⟩
      · right; left
        exact ⟨n, he.trans hn⟩
      · right; right; left
        exact ⟨s, he.trans hs⟩
    | ok u =>
      rw [hc] at hv
      simp only at hv
      split at hv
      · simp at hv
      · right; right; right
        exact (Except.error.inj hv).symm

theorem contentLengthCheck_eq (h : Headers) (v : String)
    (hcl : headerValue h "content-length" = some v) :
    contentLengthCheck h =
      match parseU64 v with
      | some n => if n > 8000000 then Except.error (contentTooLargeMsg n) else Except.ok ()
      | none => Except.error (invalidContentLengthMsg v) := by
  unfold contentLengthCheck
  rw [hcl]

theorem statefulHeaderMsg_ne_invalidCacheControlMsg (k v : String) :
    statefulHeaderMsg k ≠ invalidCacheControlMsg v :=
  statefulHeaderMsg_ne_of_head k _ (invalidCacheControlMsg_head v)

theorem statefulHeaderMsg_ne_contentTooLargeMsg (k : String) (n : Nat) :
    statefulHeaderMsg k ≠ contentTooLargeMsg n :=
  statefulHeaderMsg_ne_of_head k _ (contentTooLargeMsg_head n)

theorem statefulHeaderMsg_ne_invalidContentLengthMsg (k s : String) :
    statefulHeaderMsg k ≠ invalidContentLengthMsg s :=
  statefulHeaderMsg_ne_of_head k _ (invalidContentLengthMsg_head s)

theorem statefulHeaderMsg_ne_missingContentTypeMsg (k : String) :
    statefulHeaderMsg k ≠ missingContentTypeMsg :=
  statefulHeaderMsg_ne_of_head k _ rfl

theorem contentTooLargeMsg_probe (n : Nat) : (contentTooLargeMsg n).data[26]? = some 'i' := by
  unfold contentTooLargeMsg
  rw [String.data_append, String.data_append]
  rw [List.getElem?_append_left, List.getElem?_append_left]
  · rfl
  · decide
  · rw [List.length_append]
    have h29 : ("The content-length header is ".data).length = 29 := by decide
    omega

theorem invalidContentLengthMsg_probe (s : String) :
    (invalidContentLengthMsg s).data[26]? = some '\"' := by
  unfold invalidContentLengthMsg
  rw [String.data_append, String.data_append]
  rw [List.getElem?_append_left, List.getElem?_append_left]
  · rfl
  · decide
  · rw [List.length_append]
    have h27 : ("The content-length header \"".data).length = 27 := by decide
    omega

theorem invalidContentLengthMsg_ne_contentTooLargeMsg (s : String) (n : Nat) :
    invalidContentLengthMsg s ≠ contentTooLargeMsg n := by
  intro hcontra
  have h1 := contentTooLargeMsg_probe n
  rw [← hcontra, invalidContentLengthMsg_probe s] at h1
  simp at h1

theorem contentTooLargeMsg_probe5 (n : Nat) : (contentTooLargeMsg n).data[5]? = some 'o' := by
  unfold contentTooLargeMsg
  rw [String.data_append, String.data_append]
  rw [List.getElem?_append_left, List.getElem?_append_left]
  · rfl
  · decide
  · rw [List.length_append]
    have h29 : ("The content-length header is ".data).length = 29 := by decide
    omega

theorem invalidCacheControlMsg_probe5 (v : String) :
    (invalidCacheControlMsg v).data[5]? = some 'a' := by
  unfold invalidCacheControlMsg
  rw [String.data_append, String.data_append]
  rw [List.getElem?_append_left, List.getElem?_append_left]
  · rfl
  · decide
  · rw [List.length_append]
    have h29 : ("The cache-control header is \"".data).length = 29 := by decide
    omega

theorem invalidCacheControlMsg_ne_contentTooLargeMsg (v : String) (n : Nat) :
    invalidCacheControlMsg v ≠ contentTooLargeMsg n := by
  intro hcontra
  have h1 := contentTooLargeMsg_probe5 n
  rw [← hcontra, invalidCacheControlMsg_probe5 v] at h1
  simp at h1

theorem checkEntry_shape (flag : Bool) (kv : String × String) (e : String)
    (hc : checkEntry flag kv = some e) :
    e = statefulHeaderMsg kv.1 ∨ e = invalidCacheControlMsg kv.2 := by
  unfold checkEntry at hc
  split at hc
  · left
    exact (Option.some.inj hc).symm
  · split at hc
    · right
      exact (Option.some.inj hc).symm
    · simp at hc

theorem parseU64_overflow (s : String) (hne : s.data ≠ [])
    (hdig : s.data.all Char.isDigit = true)
    (hbig : 18446744073709551616 ≤ s.data.foldl (fun acc c => acc * 10 + (c.toNat - 48)) 0) :
    parseU64 s = none := by
  cases hd : s.data with
  | nil => exact absurd hd hne
  | cons c rest =>
    have hcdig : c.isDigit = true := by
      have hall := List.all_eq_true.mp hdig
      exact hall c (by rw [hd]; exact List.mem_cons_self c rest)
    have hcne : c ≠ '+' := by
      intro hcontra
      rw [hcontra] at hcdig
      exact absurd hcdig (by decide)
    unfold parseU64
    rw [hd]
    have hmatch : (match c :: rest with
        | '+' :: rest => rest
        | other => other) = c :: rest := by
      split
      · rename_i rest2 heq
        injection heq with h1 h2
        exact absurd h1 hcne
      · rfl
    rw [hmatch]
    simp only
    rw [if_neg (by simp), if_pos (hd ▸ hdig)]
    rw [if_neg]
    have hbig2 := hd ▸ hbig
    omega

/-- C3 counterexample: the claim quantifies over every header set, but the stateful and
cache-control checks run before the content-length check, so a header set that also
violates the cache-control rule fails with a different error. -/
theorem c3_content_length_counterexample :
    Headers.validate_as_sxg_payload
        (Headers.new [("content-length", "8000001"), ("cache-control", "private"),
          ("content-type", "text/html")]) false
      = Except.error (invalidCacheControlMsg "private")
    ∧ invalidCacheControlMsg "private" ≠ contentTooLargeMsg 8000001 := by
  exact ⟨rfl, by decide⟩

/-- C3 (amended): for a header set with a `content-length` header, provided the
per-header loop (stateful and cache-control checks, which run first) passes:
value `8000000` passes the content-length rule (validation succeeds when `content-type`
is present); any parsed value strictly greater than 8,000,000 fails with the
content-too-large error; an unparsable value fails with the invalid-length error. -/
theorem c3_content_length_rule (h : Headers) (flag : Bool) (v : String)
    (hcl : headerValue h "content-length" = some v)
    (hloop : h.findSome? (checkEntry flag) = none) :
    (v = "8000000" → (headerValue h "content-type").isSome →
        Headers.validate_as_sxg_payload h flag = Except.ok ())
    ∧ (∀ n, parseU64 v = some n → n > 8000000 →
        Headers.validate_as_sxg_payload h flag = Except.error (contentTooLargeMsg n))
    ∧ (parseU64 v = none →
        Headers.validate_as_sxg_payload h flag = Except.error (invalidContentLengthMsg v)) := by
  rw [validate_eq_of_loop_none h flag hloop]
  refine ⟨?_, ?_, ?_⟩
  · intro hv hct
    subst hv
    rw [contentLengthCheck_eq h _ hcl]
    have hp : parseU64 "8000000" = some 8000000 := rfl
    rw [hp]
    simp only
    rw [if_neg (by omega)]
    simp only
    rw [if_pos hct]
  · intro n hp hn
    rw [contentLengthCheck_eq h _ hcl, hp]
    simp only
    rw [if_pos hn]
  · intro hp
    rw [contentLengthCheck_eq h _ hcl, hp]

theorem c3_content_length_rule_w :
    Headers.validate_as_sxg_payload
        (Headers.new [("content-length", "8000000"), ("content-type", "text/html")]) false
      = Except.ok () := by
  have happ := c3_content_length_rule
    (Headers.new [("content-length", "8000000"), ("content-type", "text/html")])
    false "8000000" rfl rfl
  exact happ.1 rfl rfl

/-- C4 counterexample: with rejection on and a stateful header present, the result
need not be the stateful-header error: the cache-control check lives in the same
per-header loop, and here it fires first. -/
theorem c4_stateful_rejection_counterexample :
    Headers.validate_as_sxg_payload
        (Headers.new [("cache-control", "private"), ("set-cookie", "a=b"),
          ("content-type", "text/html")]) true
      = Except.error (invalidCacheControlMsg "private")
    ∧ ("set-cookie", "a=b") ∈ Headers.new [("cache-control", "private"),
        ("set-cookie", "a=b"), ("content-type", "text/html")]
    ∧ "set-cookie" ∈ STATEFUL_HEADERS
    ∧ invalidCacheControlMsg "private" ≠ statefulHeaderMsg "set-cookie" := by
  refine ⟨rfl, by decide, by decide, fun hcontra =>
    statefulHeaderMsg_ne_invalidCacheControlMsg "set-cookie" "private" hcontra.symm⟩

/-- C4 (amended): with rejection on and a stateful header present, validation fails,
and it fails with the stateful-header error naming a stateful header of the set
whenever no cache-control entry violates the cache rule (that check shares the loop);
with rejection off the stateful-header error is never returned, and validation
succeeds when the cache-control, content-length and content-type rules all pass. -/
theorem c4_stateful_rejection (h : Headers) :
    ((∃ kv ∈ h, kv.1 ∈ STATEFUL_HEADERS) →
        (∃ e, Headers.validate_as_sxg_payload h true = Except.error e)
        ∧ ((∀ kv ∈ h, ¬(kv.1 = "cache-control"
              ∧ (strContainsSub kv.2 "no-cache" = true ∨ strContainsSub kv.2 "private" = true))) →
            ∃ k2 v2, (k2, v2) ∈ h ∧ k2 ∈ STATEFUL_HEADERS
              ∧ Headers.validate_as_sxg_payload h true = Except.error (statefulHeaderMsg k2)))
    ∧ (∀ k2, Headers.validate_as_sxg_payload h false ≠ Except.error (statefulHeaderMsg k2))
    ∧ ((∀ kv ∈ h, ¬(kv.1 = "cache-control"
          ∧ (strContainsSub kv.2 "no-cache" = true ∨ strContainsSub kv.2 "private" = true))) →
        contentLengthCheck h = Except.ok () →
        (headerValue h "content-type").isSome →
        Headers.validate_as_sxg_payload h false = Except.ok ()) := by
  refine ⟨?_, ?_, ?_⟩
  · intro hex
    constructor
    · cases hf : h.findSome? (checkEntry true) with
      | some e0 => exact ⟨e0, validate_eq_error_of_loop h true e0 hf⟩
      | none =>
        exfalso
        rcases hex with ⟨kv, hm, hst⟩
        have := List.findSome?_eq_none_iff.mp hf kv hm
        rw [checkEntry_true_of_stateful kv hst] at this
        simp at this
    · intro hnc
      rcases findSome_checkEntry_true_stateful h hnc hex with ⟨k2, v2, hm2, hst2, hfs⟩
      exact ⟨k2, v2, hm2, hst2, validate_eq_error_of_loop h true _ hfs⟩
  · intro k2 hcontra
    rcases validate_false_error_shapes h _ hcontra with ⟨v, hvv⟩ | ⟨n, hn⟩ | ⟨s, hs⟩ | hm
    · exact statefulHeaderMsg_ne_invalidCacheControlMsg k2 v hvv
    · exact statefulHeaderMsg_ne_contentTooLargeMsg k2 n hn
    · exact statefulHeaderMsg_ne_invalidContentLengthMsg k2 s hs
    · exact statefulHeaderMsg_ne_missingContentTypeMsg k2 hm
  · intro hnc hclen hct
    have hf : h.findSome? (checkEntry false) = none :=
      List.findSome?_eq_none_iff.mpr (fun kv hm => checkEntry_none false kv (Or.inl rfl) (hnc kv hm))
    rw [validate_eq_of_loop_none h false hf, hclen]
    simp only
    rw [if_pos hct]

theorem c4_stateful_rejection_w :
    Headers.validate_as_sxg_payload
        (Headers.new [("set-cookie", "a=b"), ("content-type", "text/html")]) false
      = Except.ok ()
    ∧ Headers.validate_as_sxg_payload
        (Headers.new [("set-cookie", "a=b"), ("content-type", "text/html")]) false
      ≠ Except.error (statefulHeaderMsg "set-cookie") := by
  constructor
  · exact (c4_stateful_rejection _).2.2 (by decide) rfl rfl
  · exact (c4_stateful_rejection _).2.1 "set-cookie"

/-- C5 counterexample: a header set without `content-type` can fail with a different
error first — here the cache-control rule fires inside the per-header loop, which
runs before the content-type presence check. -/
theorem c5_missing_content_type_counterexample :
    Headers.validate_as_sxg_payload (Headers.new [("cache-control", "private")]) false
      = Except.error (invalidCacheControlMsg "private")
    ∧ headerValue (Headers.new [("cache-control", "private")]) "content-type" = none
    ∧ invalidCacheControlMsg "private" ≠ missingContentTypeMsg := by
  refine ⟨rfl, rfl, by decide⟩

/-- C5 (amended): whenever `content-type` is absent, validation fails (it never
succeeds), for either flag value; the error is the missing-content-type error
provided the earlier checks pass (the per-header loop finds nothing and the
content-length block succeeds). -/
theorem c5_missing_content_type (h : Headers) (flag : Bool)
    (hct : headerValue h "content-type" = none) :
    (∃ e, Headers.validate_as_sxg_payload h flag = Except.error e)
    ∧ (h.findSome? (checkEntry flag) = none → contentLengthCheck h = Except.ok () →
        Headers.validate_as_sxg_payload h flag = Except.error missingContentTypeMsg) := by
  constructor
  · cases hf : h.findSome? (checkEntry flag) with
    | some e0 => exact ⟨e0, validate_eq_error_of_loop h flag e0 hf⟩
    | none =>
      rw [validate_eq_of_loop_none h flag hf]
      cases hc : contentLengthCheck h with
      | error e1 => exact ⟨e1, rfl⟩
      | ok u =>
        refine ⟨missingContentTypeMsg, ?_⟩
        simp only
        rw [hct]
        rfl
  · intro hf hc
    rw [validate_eq_of_loop_none h flag hf, hc]
    simp only
    rw [hct]
    rfl

theorem c5_missing_content_type_w :
    Headers.validate_as_sxg_payload (Headers.new [("x-frame-options", "deny")]) true
      = Except.error missingContentTypeMsg := by
  exact (c5_missing_content_type (Headers.new [("x-frame-options", "deny")]) true rfl).2 rfl rfl

/-- C9 counterexample: the claim quantifies over every header set with the oversized
content-length value, but the per-header loop runs first; a header set that also
violates the cache-control rule fails with the cache-control error instead. -/
theorem c9_overflow_counterexample :
    Headers.validate_as_sxg_payload
        (Headers.new [("cache-control", "private"),
          ("content-length", "18446744073709551616"), ("content-type", "text/html")]) false
      = Except.error (invalidCacheControlMsg "private")
    ∧ invalidCacheControlMsg "private" ≠ invalidContentLengthMsg "18446744073709551616" := by
  exact ⟨rfl, by decide⟩

/-- C9 (amended): a content-length value that is a decimal numeral (nonempty, all
ASCII digits) denoting a quantity larger than 2^64 - 1 does not parse as a `u64`:
validation never fails with the content-too-large error on such a header set, and —
provided the per-header loop (stateful and cache-control checks, which run first)
finds nothing — it fails with the invalid-content-length error. -/
theorem c9_overflow_parse (h : Headers) (flag : Bool) (s : String)
    (hcl : headerValue h "content-length" = some s)
    (hne : s.data ≠ []) (hdig : s.data.all Char.isDigit = true)
    (hbig : 18446744073709551616 ≤ s.data.foldl (fun acc c => acc * 10 + (c.toNat - 48)) 0) :
    (∀ n, Headers.validate_as_sxg_payload h flag ≠ Except.error (contentTooLargeMsg n))
    ∧ (h.findSome? (checkEntry flag) = none →
        Headers.validate_as_sxg_payload h flag = Except.error (invalidContentLengthMsg s)) := by
  have hp : parseU64 s = none := parseU64_overflow s hne hdig hbig
  constructor
  · intro n hcontra
    cases hf : h.findSome? (checkEntry flag) with
    | some e0 =>
      rw [validate_eq_error_of_loop h flag e0 hf] at hcontra
      have he := Except.error.inj hcontra
      rcases List.exists_of_findSome?_eq_some hf with ⟨kv, hm, hck⟩
      rcases checkEntry_shape flag kv e0 hck with h1 | h1
      · exact statefulHeaderMsg_ne_contentTooLargeMsg kv.1 n (h1.symm.trans he)
      · exact invalidCacheControlMsg_ne_contentTooLargeMsg kv.2 n (h1.symm.trans he)
    | none =>
      have hmain : Headers.validate_as_sxg_payload h flag
          = Except.error (invalidContentLengthMsg s) := by
        rw [validate_eq_of_loop_none h flag hf, contentLengthCheck_eq h s hcl, hp]
      rw [hmain] at hcontra
      exact invalidContentLengthMsg_ne_contentTooLargeMsg s n (Except.error.inj hcontra)
  · intro hf
    rw [validate_eq_of_loop_none h flag hf, contentLengthCheck_eq h s hcl, hp]

theorem c9_overflow_parse_w :
    Headers.validate_as_sxg_payload
        (Headers.new [("content-length", "18446744073709551616"), ("content-type", "text/html")])
        false
      ≠ Except.error (contentTooLargeMsg 8000001)
    ∧ Headers.validate_as_sxg_payload
        (Headers.new [("content-length", "18446744073709551616"), ("content-type", "text/html")])
        false
      = Except.error (invalidContentLengthMsg "18446744073709551616") := by
  have happ := c9_overflow_parse
    (Headers.new [("content-length", "18446744073709551616"), ("content-type", "text/html")])
    false "18446744073709551616" rfl (by decide) (by decide) (by decide)
  exact ⟨happ.1 8000001, happ.2 rfl⟩

/-- C1: evaluation of the code at the failing input.  With upstream `via: 1.1 foo`,
an accepting media-type validator and an empty allow-list, the output `via` value is
`"1.1 foo, 1.1 foo, sxgrs"` — the computed via value (which already contains the
upstream value) is appended to the existing value again — not `"1.1 foo, sxgrs"`;
and with `via` in the allow-list the header passes through entirely unchanged. -/
theorem c1_via_duplication_eval :
    Headers.forward_to_origin_server
        (Headers.new [("accept", "application/signed-exchange;v=b3"), ("via", "1.1 foo")])
        (fun _ => Except.ok ()) []
      = Except.ok [("via", "1.1 foo, 1.1 foo, sxgrs"), ("user-agent", defaultUserAgent)]
    ∧ "1.1 foo, 1.1 foo, sxgrs" ≠ "1.1 foo, sxgrs"
    ∧ Headers.forward_to_origin_server
        (Headers.new [("accept", "application/signed-exchange;v=b3"), ("via", "1.1 foo")])
        (fun _ => Except.ok ()) ["via"]
      = Except.ok [("via", "1.1 foo"), ("user-agent", defaultUserAgent)] := by
  refine ⟨rfl, by decide, rfl⟩

/-- C8: with a valid `accept` header, no `user-agent` and no `via` entry, and an empty
allow-list, forwarding yields exactly the default user-agent entry and `via: sxgrs`;
and without an `accept` header forwarding fails with the missing-header error. -/
theorem c8_forward_defaults :
    (∀ (h : Headers) (validator : String → Except String Unit) (av : String),
        headerValue h "accept" = some av → validator av = Except.ok () →
        headerValue h "user-agent" = none → headerValue h "via" = none →
        Headers.forward_to_origin_server h validator []
          = Except.ok [("user-agent", defaultUserAgent), ("via", "sxgrs")])
    ∧ (∀ (h : Headers) (validator : String → Except String Unit) (fw : List String),
        headerValue h "accept" = none →
        Headers.forward_to_origin_server h validator fw = Except.error missingAcceptMsg) := by
  constructor
  · intro h validator av ha hv hua hvia
    unfold Headers.forward_to_origin_server
    rw [ha]
    simp only
    rw [hv]
    simp only
    rw [hvia]
    simp only
    have hfm : h.filterMap (fun kv =>
        if List.contains ([] : List String) kv.1 then some kv
        else if kv.1 == "via" then some (kv.1, kv.2 ++ ", " ++ "sxgrs") else none) = [] := by
      apply List.filterMap_eq_nil_iff.mpr
      intro kv hm
      have hne : kv.1 ≠ "via" := (headerValue_eq_none_iff h "via").mp hvia kv hm
      rw [if_neg (by simp), if_neg (by simpa using hne)]
    rw [hfm]
    rfl
  · intro h validator fw ha
    unfold Headers.forward_to_origin_server
    rw [ha]

theorem c8_forward_defaults_w :
    Headers.forward_to_origin_server
        (Headers.new [("accept", "application/signed-exchange;v=b3"), ("host", "example.com")])
        (fun _ => Except.ok ()) []
      = Except.ok [("user-agent", defaultUserAgent), ("via", "sxgrs")]
    ∧ Headers.forward_to_origin_server (Headers.new [("host", "example.com")])
        (fun _ => Except.ok ()) ["host"]
      = Except.error missingAcceptMsg := by
  constructor
  · exact c8_forward_defaults.1
      (Headers.new [("accept", "application/signed-exchange;v=b3"), ("host", "example.com")])
      (fun _ => Except.ok ()) "application/signed-exchange;v=b3" rfl rfl rfl rfl
  · exact c8_forward_defaults.2 (Headers.new [("host", "example.com")])
      (fun _ => Except.ok ()) ["host"] rfl

theorem contains_false_iff (l : List String) (a : String) : (l.contains a = false) ↔ a ∉ l := by
  rw [← contains_true_iff]
  cases hc : l.contains a <;> simp

/-- C2: every entry of the signed-headers map is either one of the three synthetic
entries or an original entry whose name is in neither constant set, and the three
synthetic entries are always present — no validation call is assumed. -/
theorem c2_signed_headers (h : Headers) (status_code : Nat) (mice_digest : List Nat) :
    (∀ kv ∈ Headers.signedHeaders h status_code mice_digest,
        (kv ∈ h ∧ kv.1 ∉ UNCACHED_HEADERS ∧ kv.1 ∉ STATEFUL_HEADERS)
        ∨ kv = (":status", toString status_code)
        ∨ kv = ("content-encoding", "mi-sha256-03")
        ∨ kv = ("digest", "mi-sha256-03=" ++ base64Encode mice_digest))
    ∧ (":status", toString status_code) ∈ Headers.signedHeaders h status_code mice_digest
    ∧ ("content-encoding", "mi-sha256-03") ∈ Headers.signedHeaders h status_code mice_digest
    ∧ ("digest", "mi-sha256-03=" ++ base64Encode mice_digest)
        ∈ Headers.signedHeaders h status_code mice_digest := by
  refine ⟨?_, ?_, ?_, ?_⟩
  · intro kv hkv
    unfold Headers.signedHeaders at hkv
    rcases List.mem_append.mp hkv with hl | hr
    · left
      have hf := List.mem_filter.mp hl
      have hb := hf.2
      simp only [Bool.not_eq_true', Bool.or_eq_false_iff] at hb
      exact ⟨hf.1, (contains_false_iff _ _).mp hb.1, (contains_false_iff _ _).mp hb.2⟩
    · right
      simpa using hr
  · unfold Headers.signedHeaders
    exact List.mem_append.mpr (Or.inr (by simp))
  · unfold Headers.signedHeaders
    exact List.mem_append.mpr (Or.inr (by simp))
  · unfold Headers.signedHeaders
    exact List.mem_append.mpr (Or.inr (by simp))

theorem c2_signed_headers_w :
    (("content-type", "text/html")
          ∈ (Headers.new [("connection", "close"), ("content-type", "text/html")] : Headers)
        ∧ "content-type" ∉ UNCACHED_HEADERS ∧ "content-type" ∉ STATEFUL_HEADERS)
    ∨ ("content-type", "text/html") = ((":status" : String), toString 200)
    ∨ ("content-type", "text/html") = (("content-encoding" : String), ("mi-sha256-03" : String))
    ∨ ("content-type", "text/html")
        = (("digest" : String), "mi-sha256-03=" ++ base64Encode [1, 2, 3]) :=
  (c2_signed_headers (Headers.new [("connection", "close"), ("content-type", "text/html")])
      200 [1, 2, 3]).1
    ("content-type", "text/html") (by decide)

/-- The keys of the signed-headers map are pairwise distinct whenever the original
table has pairwise distinct keys. -/
theorem signedHeaders_keys_nodup (h : Headers) (sc : Nat) (mice : List Nat)
    (hnd : (h.map Prod.fst).Nodup) :
    ((Headers.signedHeaders h sc mice).map Prod.fst).Nodup := by
  unfold Headers.signedHeaders
  rw [List.map_append]
  rw [List.nodup_append]
  refine ⟨?_, ?_, ?_⟩
  · exact hnd.sublist ((List.filter_sublist h).map Prod.fst)
  · show ([":status", "content-encoding", "digest"] : List String).Nodup
    decide
  · intro a hal har
    rcases List.mem_map.mp hal with ⟨kv, hkv, hfst⟩
    have hf := List.mem_filter.mp hkv
    have hb := hf.2
    simp only [Bool.not_eq_true', Bool.or_eq_false_iff] at hb
    have hnu : kv.1 ∉ UNCACHED_HEADERS := (contains_false_iff _ _).mp hb.1
    apply hnu
    rw [hfst]
    have har2 : a = ":status" ∨ a = "content-encoding" ∨ a = "digest" := by simpa using har
    rcases har2 with rfl | rfl | rfl
    · decide
    · decide
    · decide

/-- C10: the serialized map has pairwise distinct keys — the three synthetic names
are members of `UNCACHED_HEADERS`, so same-named original entries are removed before
the synthetic entries are appended. -/
theorem c10_signed_headers_unique_keys (h : Headers) (sc : Nat) (mice : List Nat)
    (hnd : (h.map Prod.fst).Nodup) :
    ((Headers.signedHeaders h sc mice).map Prod.fst).Nodup
    ∧ ":status" ∈ UNCACHED_HEADERS ∧ "content-encoding" ∈ UNCACHED_HEADERS
    ∧ "digest" ∈ UNCACHED_HEADERS :=
  ⟨signedHeaders_keys_nodup h sc mice hnd, by decide, by decide, by decide⟩

theorem c10_signed_headers_unique_keys_w :
    ((Headers.signedHeaders
        (Headers.new [(":status", "999"), ("content-type", "text/html")]) 200 [7]).map
      Prod.fst).Nodup :=
  (c10_signed_headers_unique_keys
    (Headers.new [(":status", "999"), ("content-type", "text/html")]) 200 [7] (by decide)).1

theorem asciiLowerChar_idem (c : Char) : asciiLowerChar (asciiLowerChar c) = asciiLowerChar c := by
  unfold asciiLowerChar
  by_cases hc : 65 ≤ c.toNat ∧ c.toNat ≤ 90
  · rw [if_pos hc]
    have hv : (c.toNat + 32).isValidChar := Or.inl (by omega)
    rw [if_neg]
    rw [char_toNat_ofNat _ hv]
    omega
  · rw [if_neg hc, if_neg hc]

theorem asciiLower_idem (s : String) : asciiLower (asciiLower s) = asciiLower s := by
  unfold asciiLower
  have hdata : (String.mk (s.data.map asciiLowerChar)).data = s.data.map asciiLowerChar := rfl
  rw [hdata, List.map_map]
  congr 1
  apply List.map_congr_left
  intro c hc
  exact asciiLowerChar_idem c

theorem find?_filter_ne (l : List (String × String)) (k name : String) (hne : name ≠ k) :
    (l.filter (fun p => p.1 != k)).find? (fun p => p.1 == name)
      = l.find? (fun p => p.1 == name) := by
  induction l with
  | nil => rfl
  | cons x xs ih =>
    rw [List.filter_cons]
    by_cases hxk : x.1 = k
    · have hq : (x.1 != k) = false := by simp [hxk]
      rw [hq]
      simp only [Bool.false_eq_true, if_false]
      have hpx : (x.1 == name) = false := by
        simp
        rw [hxk]
        exact fun hcontra => hne hcontra.symm
      rw [List.find?_cons_of_neg _ (by simp [hpx]), ih]
    · have hq : (x.1 != k) = true := by simp [hxk]
      rw [hq]
      simp only [if_true]
      cases hpx : (x.1 == name) with
      | true =>
        rw [List.find?_cons_of_pos _ (by simp [hpx]), List.find?_cons_of_pos _ (by simp [hpx])]
      | false =>
        rw [List.find?_cons_of_neg _ (by simp [hpx]), List.find?_cons_of_neg _ (by simp [hpx])]
        exact ih

theorem headerValue_insertHeader (l : Headers) (k v name : String) :
    headerValue (insertHeader l k v) name
      = if name = k then some v else headerValue l name := by
  unfold insertHeader headerValue
  by_cases hnk : name = k
  · subst hnk
    rw [if_pos rfl]
    rw [List.find?_append]
    have h1 : (l.filter (fun p => p.1 != name)).find? (fun p => p.1 == name) = none := by
      apply List.find?_eq_none.mpr
      intro x hx
      have hq := (List.mem_filter.mp hx).2
      simp at hq ⊢
      exact hq
    rw [h1]
    simp [List.find?]
  · rw [if_neg hnk]
    rw [List.find?_append, find?_filter_ne l k name hnk]
    have h2 : ([(k, v)].find? (fun p => p.1 == name)) = none := by
      have hkn : (k == name) = false := beq_eq_false_iff_ne.mpr (fun hcontra => hnk hcontra.symm)
      simp [List.find?, hkn]
    rw [h2]
    cases l.find? (fun p => p.1 == name) <;> rfl

theorem nodup_insertHeader (l : Headers) (k v : String)
    (hl : (l.map Prod.fst).Nodup) : ((insertHeader l k v).map Prod.fst).Nodup := by
  unfold insertHeader
  rw [List.map_append, List.nodup_append]
  refine ⟨hl.sublist ((List.filter_sublist l).map Prod.fst), by simp, ?_⟩
  intro a hal har
  rcases List.mem_map.mp hal with ⟨kv, hkv, hfst⟩
  have hne : kv.1 ≠ k := by simpa using (List.mem_filter.mp hkv).2
  have hak : a = k := by simpa using har
  exact hne (by rw [hfst, hak])

theorem new_append_single (data : List (String × String)) (x : String × String) :
    Headers.new (data ++ [x]) = insertHeader (Headers.new data) (asciiLower x.1) x.2 := by
  unfold Headers.new
  rw [List.foldl_append]
  rfl

theorem new_keys_nodup (data : List (String × String)) :
    ((Headers.new data).map Prod.fst).Nodup := by
  induction data using List.reverseRecOn with
  | nil => simp [Headers.new]
  | append_singleton l x ih =>
    rw [new_append_single]
    exact nodup_insertHeader _ _ _ ih

theorem new_keys_lower (data : List (String × String)) :
    ∀ kv ∈ Headers.new data, kv.1 = asciiLower kv.1 := by
  induction data using List.reverseRecOn with
  | nil =>
    intro kv hm
    simp [Headers.new] at hm
  | append_singleton l x ih =>
    intro kv hm
    rw [new_append_single] at hm
    unfold insertHeader at hm
    rcases List.mem_append.mp hm with hl | hr
    · exact ih kv (List.mem_filter.mp hl).1
    · have hkv : kv = (asciiLower x.1, x.2) := by simpa using hr
      rw [hkv]
      exact (asciiLower_idem x.1).symm

theorem new_lookup (data : List (String × String)) (name : String) :
    headerValue (Headers.new data) name
      = (data.reverse.find? (fun p => asciiLower p.1 == name)).map Prod.snd := by
  induction data using List.reverseRecOn with
  | nil => rfl
  | append_singleton l x ih =>
    rw [new_append_single, headerValue_insertHeader]
    rw [List.reverse_append]
    simp only [List.reverse_singleton, List.singleton_append]
    by_cases hx : asciiLower x.1 = name
    · rw [if_pos hx.symm]
      rw [List.find?_cons_of_pos _ (by simp [hx])]
      rfl
    · rw [if_neg (fun hcontra => hx hcontra.symm)]
      rw [List.find?_cons_of_neg _ (by simp [hx])]
      exact ih

/-- C6: construction lowercases every stored key, keys are pairwise distinct, and a
lookup returns the value of the last input pair whose lowercased name matches —
construction itself is a total function (it has no error path). -/
theorem c6_construction (data : List (String × String)) :
    ((Headers.new data).map Prod.fst).Nodup
    ∧ (∀ kv ∈ Headers.new data, kv.1 = asciiLower kv.1)
    ∧ ∀ name, headerValue (Headers.new data) name
        = (data.reverse.find? (fun p => asciiLower p.1 == name)).map Prod.snd :=
  ⟨new_keys_nodup data, new_keys_lower data, new_lookup data⟩

theorem c6_construction_w :
    headerValue (Headers.new [("Set-Cookie", "a"), ("SET-COOKIE", "b")]) "set-cookie" = some "b"
    ∧ "set-cookie" = asciiLower "set-cookie" := by
  constructor
  · exact ((c6_construction [("Set-Cookie", "a"), ("SET-COOKIE", "b")]).2.2 "set-cookie").trans
      (by decide)
  · exact (c6_construction [("Set-Cookie", "a"), ("SET-COOKIE", "b")]).2.1 ("set-cookie", "b")
      (by decide)

theorem charListLe_total (x y : List Char) : charListLe x y = true ∨ charListLe y x = true := by
  induction x generalizing y with
  | nil => left; rfl
  | cons a as ih =>
    cases y with
    | nil => right; rfl
    | cons b bs =>
      simp only [charListLe]
      rcases Nat.lt_trichotomy a.toNat b.toNat with h | h | h
      · left; rw [if_pos h]
      · have h1 : ¬a.toNat < b.toNat := by omega
        have h2 : ¬b.toNat < a.toNat := by omega
        rw [if_neg h1, if_neg h2, if_neg h2, if_neg h1]
        exact ih bs
      · right; rw [if_pos h]

theorem charListLe_trans (x y z : List Char) (hxy : charListLe x y = true)
    (hyz : charListLe y z = true) : charListLe x z = true := by
  induction x generalizing y z with
  | nil => rfl
  | cons a as ih =>
    cases y with
    | nil => simp [charListLe] at hxy
    | cons b bs =>
      cases z with
      | nil => simp [charListLe] at hyz
      | cons c cs =>
        simp only [charListLe] at hxy hyz ⊢
        by_cases h1 : a.toNat < b.toNat
        · by_cases h2 : b.toNat < c.toNat
          · rw [if_pos (by omega)]
          · by_cases h3 : c.toNat < b.toNat
            · rw [if_neg h2, if_pos h3] at hyz
              exact absurd hyz (by simp)
            · rw [if_pos (by omega)]
        · by_cases h3 : b.toNat < a.toNat
          · rw [if_neg h1, if_pos h3] at hxy
            exact absurd hxy (by simp)
          · rw [if_neg h1, if_neg h3] at hxy
            by_cases h2 : b.toNat < c.toNat
            · rw [if_pos (by omega)]
            · by_cases h4 : c.toNat < b.toNat
              · rw [if_neg h2, if_pos h4] at hyz
                exact absurd hyz (by simp)
              · rw [if_neg h2, if_neg h4] at hyz
                rw [if_neg (by omega), if_neg (by omega)]
                exact ih bs cs hxy hyz

theorem charListLe_antisymm (x y : List Char) (hxy : charListLe x y = true)
    (hyx : charListLe y x = true) : x = y := by
  induction x generalizing y with
  | nil =>
    cases y with
    | nil => rfl
    | cons b bs => simp [charListLe] at hyx
  | cons a as ih =>
    cases y with
    | nil => simp [charListLe] at hxy
    | cons b bs =>
      simp only [charListLe] at hxy hyx
      by_cases h1 : a.toNat < b.toNat
      · rw [if_neg (by omega), if_pos h1] at hyx
        exact absurd hyx (by simp)
      · by_cases h2 : b.toNat < a.toNat
        · rw [if_neg h1, if_pos h2] at hxy
          exact absurd hxy (by simp)
        · have hab : a = b := char_toNat_inj a b (by omega)
          rw [if_neg h1, if_neg h2] at hxy
          rw [if_neg h2, if_neg h1] at hyx
          rw [hab, ih bs hxy hyx]

theorem entryLeB_total (a b : String × String) : entryLeB a b = true ∨ entryLeB b a = true :=
  charListLe_total a.1.data b.1.data

theorem entryLeB_trans (a b c : String × String) (hab : entryLeB a b = true)
    (hbc : entryLeB b c = true) : entryLeB a c = true :=
  charListLe_trans a.1.data b.1.data c.1.data hab hbc

theorem entryLeB_antisymm_keys (a b : String × String) (hab : entryLeB a b = true)
    (hba : entryLeB b a = true) : a.1 = b.1 :=
  string_data_inj _ _ (charListLe_antisymm a.1.data b.1.data hab hba)

theorem insertSorted_perm (e : String × String) (l : List (String × String)) :
    List.Perm (insertSorted e l) (e :: l) := by
  induction l with
  | nil => exact List.Perm.refl _
  | cons x xs ih =>
    unfold insertSorted
    by_cases hle : entryLeB e x = true
    · rw [if_pos hle]
    · rw [if_neg hle]
      exact (ih.cons x).trans (List.Perm.swap e x xs)

theorem sortEntries_perm (l : List (String × String)) : List.Perm (sortEntries l) l := by
  induction l with
  | nil => exact List.Perm.refl _
  | cons x xs ih =>
    unfold sortEntries
    exact (insertSorted_perm x (sortEntries xs)).trans (ih.cons x)

theorem insertSorted_pairwise (e : String × String) (l : List (String × String))
    (hl : List.Pairwise (fun a b => entryLeB a b = true) l) :
    List.Pairwise (fun a b => entryLeB a b = true) (insertSorted e l) := by
  induction l with
  | nil => simp [insertSorted]
  | cons x xs ih =>
    unfold insertSorted
    by_cases hle : entryLeB e x = true
    · rw [if_pos hle]
      refine List.pairwise_cons.mpr ⟨?_, hl⟩
      intro y hy
      rcases List.mem_cons.mp hy with rfl | hym
      · exact hle
      · exact entryLeB_trans e x y hle (List.rel_of_pairwise_cons hl hym)
    · rw [if_neg hle]
      have hex : entryLeB x e = true := (entryLeB_total e x).resolve_left hle
      refine List.pairwise_cons.mpr ⟨?_, ih (List.pairwise_cons.mp hl).2⟩
      intro y hy
      have hy2 := (insertSorted_perm e xs).mem_iff.mp hy
      rcases List.mem_cons.mp hy2 with rfl | hym
      · exact hex
      · exact List.rel_of_pairwise_cons hl hym

theorem sortEntries_pairwise (l : List (String × String)) :
    List.Pairwise (fun a b => entryLeB a b = true) (sortEntries l) := by
  induction l with
  | nil => simp [sortEntries]
  | cons x xs ih => exact insertSorted_pairwise x _ ih

theorem sorted_unique (l1 l2 : List (String × String)) (hperm : List.Perm l1 l2)
    (hnd : (l1.map Prod.fst).Nodup)
    (hp1 : List.Pairwise (fun a b => entryLeB a b = true) l1)
    (hp2 : List.Pairwise (fun a b => entryLeB a b = true) l2) : l1 = l2 := by
  have hnd2 : (l2.map Prod.fst).Nodup := (hperm.map Prod.fst).nodup hnd
  have hne1 : List.Pairwise (fun a b : String × String => a.1 ≠ b.1) l1 := by
    have hh := hnd
    unfold List.Nodup at hh
    rwa [List.pairwise_map] at hh
  have hne2 : List.Pairwise (fun a b : String × String => a.1 ≠ b.1) l2 := by
    have hh := hnd2
    unfold List.Nodup at hh
    rwa [List.pairwise_map] at hh
  have hs1 := hp1.and hne1
  have hs2 := hp2.and hne2
  haveI : IsAntisymm (String × String) (fun a b => entryLeB a b = true ∧ a.1 ≠ b.1) :=
    ⟨fun a b hab hba => absurd (entryLeB_antisymm_keys a b hab.1 hba.1) hab.2⟩
  exact List.eq_of_perm_of_sorted hperm hs1 hs2

theorem cborMapBytes_eq_of_perm (l1 l2 : List (String × String)) (hperm : List.Perm l1 l2)
    (hnd : (l1.map Prod.fst).Nodup) : cborMapBytes l1 = cborMapBytes l2 := by
  unfold cborMapBytes
  have hsorteq : sortEntries l1 = sortEntries l2 :=
    sorted_unique (sortEntries l1) (sortEntries l2)
      ((sortEntries_perm l1).trans (hperm.trans (sortEntries_perm l2).symm))
      (((sortEntries_perm l1).map Prod.fst).symm.nodup hnd)
      (sortEntries_pairwise l1) (sortEntries_pairwise l2)
  rw [hsorteq]

theorem new_eq_map_of_nodup (d : List (String × String))
    (hnd : (d.map (fun p => asciiLower p.1)).Nodup) :
    Headers.new d = d.map (fun p => (asciiLower p.1, p.2)) := by
  induction d using List.reverseRecOn with
  | nil => rfl
  | append_singleton l x ih =>
    rw [List.map_append, List.nodup_append] at hnd
    have hx : asciiLower x.1 ∉ l.map (fun p => asciiLower p.1) :=
      fun hmem => hnd.2.2 hmem (by simp)
    rw [new_append_single, ih hnd.1]
    unfold insertHeader
    have hfil : (l.map (fun p => (asciiLower p.1, p.2))).filter
        (fun p => p.1 != asciiLower x.1) = l.map (fun p => (asciiLower p.1, p.2)) := by
      apply List.filter_eq_self.mpr
      intro p hp
      rcases List.mem_map.mp hp with ⟨q, hq, rfl⟩
      have : asciiLower q.1 ∈ l.map (fun p => asciiLower p.1) := List.mem_map.mpr ⟨q, hq, rfl⟩
      simp only [bne_iff_ne, ne_eq]
      exact fun hcontra => hx (hcontra ▸ this)
    rw [hfil, List.map_append]
    rfl

/-- C7: serializing two header tables built from the same logical collection of pairs
(a permutation of each other, with no duplicate lowercased names) gives byte-identical
output, for the same status code and digest bytes; the serializer itself is a pure
function, so repeated calls on equal inputs are byte-identical by definition. -/
theorem c7_deterministic_serialization (d1 d2 : List (String × String)) (sc : Nat)
    (mice : List Nat) (hperm : List.Perm d1 d2)
    (hnd : (d1.map (fun p => asciiLower p.1)).Nodup) :
    Headers.get_signed_headers_bytes (Headers.new d1) sc mice
      = Headers.get_signed_headers_bytes (Headers.new d2) sc mice := by
  have hnd2 : (d2.map (fun p => asciiLower p.1)).Nodup :=
    (hperm.map (fun p => asciiLower p.1)).nodup hnd
  have hpermnew : List.Perm (Headers.new d1) (Headers.new d2) := by
    rw [new_eq_map_of_nodup d1 hnd, new_eq_map_of_nodup d2 hnd2]
    exact hperm.map _
  unfold Headers.get_signed_headers_bytes
  apply cborMapBytes_eq_of_perm
  · unfold Headers.signedHeaders
    exact (hpermnew.filter _).append_right _
  · exact signedHeaders_keys_nodup _ sc mice (new_keys_nodup d1)

theorem c7_deterministic_serialization_w :
    Headers.get_signed_headers_bytes
        (Headers.new [("b", "2"), ("content-type", "text/html")]) 200 [7]
      = Headers.get_signed_headers_bytes
        (Headers.new [("content-type", "text/html"), ("b", "2")]) 200 [7] :=
  c7_deterministic_serialization [("b", "2"), ("content-type", "text/html")]
    [("content-type", "text/html"), ("b", "2")] 200 [7] (by decide) (by decide)
